import Mathlib

/-!
Shallow embedding of the navigation/selection core of `ratatui-explorer`
(`src/file_explorer.rs` and the `FileSystem` contract of
`src/filesystem/mod.rs`).

Modelling conventions:
* Paths (`std::path::PathBuf`) are lists of components; the root (or empty)
  path is `[]`.  `PathBuf::parent` is `none` on `[]` and drops the last
  component otherwise; `PathBuf::file_name` is the last component.
* Rust `usize` arithmetic is `Nat` with explicit wrapping at `2 ^ 64` where
  the source wraps (`wrapping_sub`); `saturating_sub` is `Nat` subtraction.
* `String::to_lowercase` / `str::contains` are modelled over the ASCII
  fragment by `Char.toLower` and list-infix search.
* The `FileSystem` trait is a structure of functions over an abstract
  backend state `σ`: `read_dir` is a query, `delete` may change the backend
  state.  The source passes paths as strings (`to_string_lossy`); the model
  passes the component list directly (the rendering is injective here).
* A Rust method returning `Result<()>` while mutating `&mut self` is
  modelled by `HRes`, which carries the (possibly partially mutated)
  explorer and backend state in the error case exactly as the source's `?`
  early returns leave them; Rust panics (vector indexing out of bounds,
  failed `assert!`) are the `fatal` outcome.
-/

/-- A filesystem path as its list of components; `[]` is the root. -/
abbrev FsPath : Type := List String

/-- `PathBuf::parent`: `none` at the root, otherwise drop the last component. -/
def parentPath (p : FsPath) : Option FsPath :=
  match p with
  | [] => none
  | _ :: _ => some (List.dropLast p)

/-- `PathBuf::file_name`: the last component, if any. -/
def fileNameOf (p : FsPath) : Option String :=
  List.getLast? p

/-- Unix-style permission bits (`FilePermissions` in `filesystem/mod.rs`). -/
structure FilePermissions where
  user_read : Bool
  user_write : Bool
  user_execute : Bool
  group_read : Bool
  group_write : Bool
  group_execute : Bool
  others_read : Bool
  others_write : Bool
  others_execute : Bool
deriving DecidableEq, Repr

/-- One directory-listing record (`FileEntry` in `filesystem/mod.rs`);
`modified` models `SystemTime` as abstract ticks. -/
structure FileEntry where
  name : String
  path : FsPath
  is_dir : Bool
  is_file : Bool
  is_hidden : Bool
  size : Option Nat
  modified : Option Nat
  permissions : Option FilePermissions
  is_symlink : Bool
  symlink_target : Option String
deriving DecidableEq, Repr

/-- A file or directory shown by the explorer (`File` in `file_explorer.rs`). -/
structure File where
  name : String
  path : FsPath
  is_file : Bool
  is_dir : Bool
  is_hidden : Bool
  size : Option Nat
  modified : Option Nat
  permissions : Option FilePermissions
  symlink_target : Option String
deriving DecidableEq, Repr

/-- The `FileSystem` trait restricted to the operations the explorer core
calls (`read_dir`, `delete`); `σ` is the backend's abstract state, which
`read_dir` observes and `delete` may change. -/
structure FileSystemM (ε σ : Type) where
  read_dir : σ → FsPath → Except ε (List FileEntry)
  delete : σ → FsPath → Except ε σ

/-- The explorer state (`FileExplorer` in `file_explorer.rs`); the opaque
`theme` field is omitted (never read or written by the modelled logic). -/
structure Explorer where
  cwd : FsPath
  files : List File
  filtered_files : List (Nat × File)
  show_hidden : Bool
  selected : Nat
  search_filter : Option String
  scroll_offset : Nat
  selected_paths : List FsPath
deriving DecidableEq, Repr

/-- Outcome of a `&mut self` method returning `Result<()>`: `ok`/`err` carry
the explorer and backend state (errors leave the mutations already applied,
as Rust's `?` does); `fatal` is a Rust panic. -/
inductive HRes (ε σ : Type) where
  | ok : Explorer → σ → HRes ε σ
  | err : ε → Explorer → σ → HRes ε σ
  | fatal : HRes ε σ
deriving DecidableEq

/-- The abstract input commands handled by `FileExplorer::handle`. -/
inductive Input where
  | Up | Down | Left | Right | Home | End | PageUp | PageDown
  | ToggleShowHidden | Delete | None
deriving DecidableEq, Repr

/-- ASCII model of `String::to_lowercase`, character by character. -/
def toLowerStr (s : String) : String :=
  ⟨s.data.map Char.toLower⟩

/-- `str::contains` on character lists: some suffix of `hay` starts with
`needle`. -/
def listContainsSub : List Char → List Char → Bool
  | hay, needle =>
    if needle.isPrefixOf hay then true
    else match hay with
      | [] => false
      | _ :: t => listContainsSub t needle

/-- `str::contains(needle)` on strings. -/
def strContains (hay needle : String) : Bool :=
  listContainsSub hay.data needle.data

/-- `FileExplorer::compute_filtered_files`: enumerate the unfiltered list
and keep the pairs whose name contains the filter case-insensitively; with
no filter, the full enumeration. -/
def computeFilteredFiles (s : Explorer) : List (Nat × File) :=
  match s.search_filter with
  | some filter =>
    let filterLower := toLowerStr filter
    (s.files.enum.filter fun p => strContains (toLowerStr p.2.name) filterLower)
  | none => s.files.enum

/-- `FileExplorer::filtered_selected_idx`: position of the stored unfiltered
index within the filtered list. -/
def filteredSelectedIdx (s : Explorer) : Option Nat :=
  s.filtered_files.findIdx? (fun p => p.1 == s.selected)

/-- `FileExplorer::selected_idx`. -/
def selectedIdx (s : Explorer) : Nat :=
  (filteredSelectedIdx s).getD 0

/-- `FileExplorer::set_search_filter`: store the filter, recompute the
filtered list in memory (no filesystem access). -/
def setSearchFilter (s : Explorer) (filter : Option String) : Explorer :=
  let s1 := { s with search_filter := filter }
  { s1 with filtered_files := computeFilteredFiles s1 }

/-- `FileExplorer::set_selected_idx`: `assert!(selected < filtered.len())`
(modelled as `none` on violation), then store the backing unfiltered index. -/
def setSelectedIdx (s : Explorer) (sel : Nat) : Option Explorer :=
  if h : sel < s.filtered_files.length then
    some { s with selected := (s.filtered_files.get ⟨sel, h⟩).1 }
  else
    none

/-- `FileExplorer::select_file`: first unfiltered entry with the given name,
reporting whether one was found. -/
def selectFile (s : Explorer) (filename : String) : Bool × Explorer :=
  match s.files.findIdx? (fun f => f.name == filename) with
  | some index => (true, { s with selected := index })
  | none => (false, s)

/-- The synthetic `"../"` parent entry prepended by `get_and_set_files`. -/
def parentEntryFile (parent : FsPath) : File :=
  { name := "../", path := parent, is_dir := true, is_file := false,
    is_hidden := false, size := none, modified := none, permissions := none,
    symlink_target := none }

/-- The entry-to-`File` conversion and hidden filtering plus parent-entry
prepend of `get_and_set_files`. -/
def buildFiles (cwd : FsPath) (showHidden : Bool) (entries : List FileEntry) :
    List File :=
  let files := (entries.filter fun e => showHidden || !e.is_hidden).map
    fun e =>
      { name := e.name, path := e.path, is_dir := e.is_dir,
        is_file := e.is_file, is_hidden := e.is_hidden, size := e.size,
        modified := e.modified, permissions := e.permissions,
        symlink_target := e.symlink_target : File }
  match parentPath cwd with
  | some parent => parentEntryFile parent :: files
  | none => files

/-- `FileExplorer::get_and_set_files`: query the lister for the current
directory, rebuild the unfiltered list, recompute the filtered list; on a
query error nothing is replaced. -/
def getAndSetFiles {ε σ : Type} (fs : FileSystemM ε σ) (st : σ)
    (s : Explorer) : Except ε Explorer :=
  match fs.read_dir st s.cwd with
  | .error e => .error e
  | .ok entries =>
    let s1 := { s with files := buildFiles s.cwd s.show_hidden entries }
    .ok { s1 with filtered_files := computeFilteredFiles s1 }

/-- `Vec::swap_remove`: replace slot `i` with the last element and pop. -/
def swapRemove (l : List File) (i : Nat) : List File :=
  match l.getLast? with
  | none => l
  | some last => (l.set i last).dropLast

/-- `2 ^ 64`, the modulus of `usize` arithmetic. -/
def usizeMod : Nat := 2 ^ 64

/-- `usize::wrapping_sub(x, 1)`. -/
def wrappingSubOne (x : Nat) : Nat :=
  (x + (usizeMod - 1)) % usizeMod

/-- The `SCROLL_COUNT` constant of `FileExplorer::handle`. -/
def scrollCount : Nat := 12

/-- `FileExplorer::set_show_hidden`: flag first, then reload, then reset the
selection (the flag persists if the reload fails). -/
def setShowHidden {ε σ : Type} (fs : FileSystemM ε σ) (st : σ) (s : Explorer)
    (b : Bool) : HRes ε σ :=
  let s1 := { s with show_hidden := b }
  match getAndSetFiles fs st s1 with
  | .error e => .err e s1 st
  | .ok s2 => .ok { s2 with selected := 0 } st

/-- `FileExplorer::set_cwd`: directory first, then reload, then reset the
selection (the directory persists if the reload fails). -/
def setCwd {ε σ : Type} (fs : FileSystemM ε σ) (st : σ) (s : Explorer)
    (p : FsPath) : HRes ε σ :=
  let s1 := { s with cwd := p }
  match getAndSetFiles fs st s1 with
  | .error e => .err e s1 st
  | .ok s2 => .ok { s2 with selected := 0 } st

/-- The `if let Some((original_idx, _)) = self.filtered_files.get(idx)
{ self.selected = *original_idx }` idiom repeated by every movement branch
of `FileExplorer::handle` (`first()` is `get(0)`, `last()` is
`get(len - 1)`). -/
def setSelectedFromFiltered (s : Explorer) (idx : Nat) : Explorer :=
  match s.filtered_files[idx]? with
  | some p => { s with selected := p.1 }
  | none => s

/-- `FileExplorer::handle`, one branch per `Input` variant, in source order. -/
def handle {ε σ : Type} (fs : FileSystemM ε σ) (st : σ) (s : Explorer) :
    Input → HRes ε σ
  | .Up =>
    if s.filtered_files.isEmpty then .ok s st
    else
      let cur := (filteredSelectedIdx s).getD 0
      .ok (setSelectedFromFiltered s
        (min (wrappingSubOne cur) (s.filtered_files.length - 1))) st
  | .Down =>
    if s.filtered_files.isEmpty then .ok s st
    else
      let cur := (filteredSelectedIdx s).getD 0
      .ok (setSelectedFromFiltered s ((cur + 1) % s.filtered_files.length)) st
  | .Home => .ok (setSelectedFromFiltered s 0) st
  | .End => .ok (setSelectedFromFiltered s (s.filtered_files.length - 1)) st
  | .PageUp =>
    if s.filtered_files.isEmpty then .ok s st
    else
      let cur := (filteredSelectedIdx s).getD 0
      .ok (setSelectedFromFiltered s (cur - scrollCount)) st
  | .PageDown =>
    if s.filtered_files.isEmpty then .ok s st
    else
      let cur := (filteredSelectedIdx s).getD 0
      .ok (setSelectedFromFiltered s
        (min (cur + scrollCount) (s.filtered_files.length - 1))) st
  | .Left =>
    match parentPath s.cwd with
    | none => .ok s st
    | some parent =>
      let currentDirName := (fileNameOf s.cwd).map (fun n => n ++ "/")
      let s1 := { s with cwd := parent }
      match getAndSetFiles fs st s1 with
      | .error e => .err e s1 st
      | .ok s2 =>
        match currentDirName with
        | some dirName =>
          match selectFile s2 dirName with
          | (true, s3) => .ok s3 st
          | (false, s3) => .ok { s3 with selected := 0 } st
        | none => .ok { s2 with selected := 0 } st
  | .Right =>
    match s.files[s.selected]? with
    | none => .fatal
    | some f =>
      if f.is_dir then
        let s1 := { s with files := swapRemove s.files s.selected,
                           cwd := f.path }
        match getAndSetFiles fs st s1 with
        | .error e => .err e s1 st
        | .ok s2 => .ok { s2 with selected := 0 } st
      else .ok s st
  | .ToggleShowHidden => setShowHidden fs st s (!s.show_hidden)
  | .Delete =>
    match s.files[s.selected]? with
    | none => .fatal
    | some f =>
      if !f.is_dir then
        match fs.delete st f.path with
        | .error e => .err e s st
        | .ok st1 =>
          match getAndSetFiles fs st1 s with
          | .error e => .err e s st1
          | .ok s2 =>
            if s2.selected ≥ s2.files.length && !s2.files.isEmpty then
              .ok { s2 with selected := s2.files.length - 1 } st1
            else .ok s2 st1
      else .ok s st
  | .None => .ok s st

/-- `FileExplorer::with_fs`: fresh state on the initial path, then an
initial reload. -/
def withFs {ε σ : Type} (fs : FileSystemM ε σ) (st : σ) (initialPath : FsPath) :
    Except ε Explorer :=
  getAndSetFiles fs st
    { cwd := initialPath, files := [], filtered_files := [],
      show_hidden := false, selected := 0, search_filter := none,
      scroll_offset := 0, selected_paths := [] }

/-! ### Concrete backends and states used for examples, counterexamples and
witnesses -/

/-- A plain visible file entry named `a.txt`. -/
def entryA : FileEntry :=
  { name := "a.txt", path := ["a.txt"], is_dir := false, is_file := true,
    is_hidden := false, size := none, modified := none, permissions := none,
    is_symlink := false, symlink_target := none }

/-- A directory entry named `b/` (directory names carry a trailing slash). -/
def entryB : FileEntry :=
  { name := "b/", path := ["b"], is_dir := true, is_file := false,
    is_hidden := false, size := none, modified := none, permissions := none,
    is_symlink := false, symlink_target := none }

/-- A plain visible file entry named `f.txt`. -/
def entryF : FileEntry :=
  { name := "f.txt", path := ["f.txt"], is_dir := false, is_file := true,
    is_hidden := false, size := none, modified := none, permissions := none,
    is_symlink := false, symlink_target := none }

/-- `entryA` as an explorer `File`. -/
def fileA : File :=
  { name := "a.txt", path := ["a.txt"], is_file := true, is_dir := false,
    is_hidden := false, size := none, modified := none, permissions := none,
    symlink_target := none }

/-- `entryB` as an explorer `File`. -/
def fileB : File :=
  { name := "b/", path := ["b"], is_file := false, is_dir := true,
    is_hidden := false, size := none, modified := none, permissions := none,
    symlink_target := none }

/-- `entryF` as an explorer `File`. -/
def fileF : File :=
  { name := "f.txt", path := ["f.txt"], is_file := true, is_dir := false,
    is_hidden := false, size := none, modified := none, permissions := none,
    symlink_target := none }

/-- A backend whose root lists `a.txt` and `b/` but fails on every other
directory (in particular on `b`). -/
def cexFS : FileSystemM Unit Unit :=
  { read_dir := fun _ p => if p = [] then .ok [entryA, entryB] else .error (),
    delete := fun st _ => .ok st }

/-- The state produced by `withFs cexFS () []`. -/
def cexS0 : Explorer :=
  { cwd := [], files := [fileA, fileB],
    filtered_files := [(0, fileA), (1, fileB)], show_hidden := false,
    selected := 0, search_filter := none, scroll_offset := 0,
    selected_paths := [] }

/-- `cexS0` after `Down`: the directory `b/` is selected. -/
def cexS1 : Explorer :=
  { cwd := [], files := [fileA, fileB],
    filtered_files := [(0, fileA), (1, fileB)], show_hidden := false,
    selected := 1, search_filter := none, scroll_offset := 0,
    selected_paths := [] }

/-- `cexS1` after the failing `Right`: `cwd` and `files` are already
mutated, `selected = 1` is out of bounds for the shrunken list. -/
def cexS2 : Explorer :=
  { cwd := ["b"], files := [fileA],
    filtered_files := [(0, fileA), (1, fileB)], show_hidden := false,
    selected := 1, search_filter := none, scroll_offset := 0,
    selected_paths := [] }

/-- A backend whose directory query always fails. -/
def failFS : FileSystemM Unit Unit :=
  { read_dir := fun _ _ => .error (), delete := fun st _ => .ok st }

/-- A one-file state inside directory `d`. -/
def c1S : Explorer :=
  { cwd := ["d"], files := [fileA], filtered_files := [(0, fileA)],
    show_hidden := false, selected := 0, search_filter := none,
    scroll_offset := 0, selected_paths := [] }

/-- `c1S` after a failing `Left`: the directory field already moved to the
parent. -/
def c1Sfail : Explorer :=
  { cwd := [], files := [fileA], filtered_files := [(0, fileA)],
    show_hidden := false, selected := 0, search_filter := none,
    scroll_offset := 0, selected_paths := [] }

/-- A backend (state: `true` once the deletion happened) whose root lists
`a.txt` and `f.txt` before the deletion and nothing afterwards. -/
def delFS : FileSystemM Unit Bool :=
  { read_dir := fun st _ =>
      if st then .ok [] else .ok [entryA, entryF],
    delete := fun _ _ => .ok true }

/-- Root state with `f.txt` selected (index 1), before the deletion. -/
def delS0 : Explorer :=
  { cwd := [], files := [fileA, fileF],
    filtered_files := [(0, fileA), (1, fileF)], show_hidden := false,
    selected := 1, search_filter := none, scroll_offset := 0,
    selected_paths := [] }

/-- The state after deleting `f.txt` when the reload comes back empty: the
selection is left at 1, not reset to 0. -/
def delS2 : Explorer :=
  { cwd := [], files := [], filtered_files := [], show_hidden := false,
    selected := 1, search_filter := none, scroll_offset := 0,
    selected_paths := [] }

/-- The synthetic parent entry of the worked filtering example. -/
def exParent : File :=
  { name := "../", path := [], is_file := false, is_dir := true,
    is_hidden := false, size := none, modified := none, permissions := none,
    symlink_target := none }

/-- The `Documents/` entry of the worked filtering example. -/
def exDocuments : File :=
  { name := "Documents/", path := ["home", "Documents"], is_file := false,
    is_dir := true, is_hidden := false, size := none, modified := none,
    permissions := none, symlink_target := none }

/-- The `passport.png` entry of the worked filtering example. -/
def exPassport : File :=
  { name := "passport.png", path := ["home", "passport.png"],
    is_file := true, is_dir := false, is_hidden := false, size := none,
    modified := none, permissions := none, symlink_target := none }

/-- The `resume.pdf` entry of the worked filtering example. -/
def exResume : File :=
  { name := "resume.pdf", path := ["home", "resume.pdf"], is_file := true,
    is_dir := false, is_hidden := false, size := none, modified := none,
    permissions := none, symlink_target := none }

/-- The worked example state: entries `../`, `Documents/`, `passport.png`,
`resume.pdf`, no filter. -/
def exS : Explorer :=
  { cwd := ["home"], files := [exParent, exDocuments, exPassport, exResume],
    filtered_files := [(0, exParent), (1, exDocuments), (2, exPassport),
      (3, exResume)],
    show_hidden := false, selected := 0, search_filter := none,
    scroll_offset := 0, selected_paths := [] }

/-- `exS` with the last entry selected. -/
def exSLast : Explorer :=
  { cwd := ["home"], files := [exParent, exDocuments, exPassport, exResume],
    filtered_files := [(0, exParent), (1, exDocuments), (2, exPassport),
      (3, exResume)],
    show_hidden := false, selected := 3, search_filter := none,
    scroll_offset := 0, selected_paths := [] }

/-- `Documents/` directory entry at the root of the round-trip backend. -/
def entryDocuments : FileEntry :=
  { name := "Documents/", path := ["Documents"], is_dir := true,
    is_file := false, is_hidden := false, size := none, modified := none,
    permissions := none, is_symlink := false, symlink_target := none }

/-- `note.txt` inside `Documents` of the round-trip backend. -/
def entryNote : FileEntry :=
  { name := "note.txt", path := ["Documents", "note.txt"], is_dir := false,
    is_file := true, is_hidden := false, size := none, modified := none,
    permissions := none, is_symlink := false, symlink_target := none }

/-- Round-trip backend: the root lists `Documents/` and `a.txt`, and
`Documents` lists `note.txt`; listings are stable across repeated queries. -/
def navFS : FileSystemM Unit Unit :=
  { read_dir := fun _ p =>
      if p = [] then .ok [entryDocuments, entryA]
      else if p = ["Documents"] then .ok [entryNote]
      else .error (),
    delete := fun st _ => .ok st }

/-- `entryDocuments` as an explorer `File`. -/
def fDocuments : File :=
  { name := "Documents/", path := ["Documents"], is_file := false,
    is_dir := true, is_hidden := false, size := none, modified := none,
    permissions := none, symlink_target := none }

/-- The root state of the round-trip backend, `Documents/` selected. -/
def navS0 : Explorer :=
  { cwd := [], files := [fDocuments, fileA],
    filtered_files := [(0, fDocuments), (1, fileA)], show_hidden := false,
    selected := 0, search_filter := none, scroll_offset := 0,
    selected_paths := [] }

/-- Commands that move only the cursor (no reload, no filesystem access). -/
def isPureNav (i : Input) : Bool :=
  match i with
  | .Up | .Down | .Home | .End | .PageUp | .PageDown | .None => true
  | _ => false

/-! ### Shared structural lemmas -/

/-- The filtered list is a sublist of the enumeration of the unfiltered one. -/
lemma computeFilteredFiles_sublist (s : Explorer) :
    List.Sublist (computeFilteredFiles s) s.files.enum := by
  unfold computeFilteredFiles
  cases s.search_filter with
  | none => exact List.Sublist.refl _
  | some filter => exact List.filter_sublist _

/-- Every pair kept by the filter is an (index, element) pair of `files`. -/
lemma mem_computeFilteredFiles {s : Explorer} {pr : Nat × File}
    (h : pr ∈ computeFilteredFiles s) : s.files[pr.1]? = some pr.2 := by
  have hm : pr ∈ s.files.enum := (computeFilteredFiles_sublist s).subset h
  exact List.mk_mem_enum_iff_getElem?.mp (by exact_mod_cast hm)

/-- Original indices kept by the filter are in bounds. -/
lemma mem_computeFilteredFiles_lt {s : Explorer} {pr : Nat × File}
    (h : pr ∈ computeFilteredFiles s) : pr.1 < s.files.length := by
  have := mem_computeFilteredFiles h
  exact (List.getElem?_eq_some.mp this).1

/-- The original indices in the filtered list are strictly increasing. -/
lemma computeFilteredFiles_pairwise (s : Explorer) :
    (computeFilteredFiles s).Pairwise (fun a b => a.1 < b.1) := by
  have henum : (s.files.enum).Pairwise (fun a b => a.1 < b.1) := by
    have h1 : (s.files.enum.map Prod.fst).Pairwise (· < ·) := by
      rw [List.enum_map_fst]
      exact List.pairwise_lt_range _
    exact (List.pairwise_map).mp h1
  exact henum.sublist (computeFilteredFiles_sublist s)

/-- `computeFilteredFiles` depends only on `files` and `search_filter`. -/
lemma computeFilteredFiles_congr {s t : Explorer} (hf : s.files = t.files)
    (hsf : s.search_filter = t.search_filter) :
    computeFilteredFiles s = computeFilteredFiles t := by
  unfold computeFilteredFiles
  rw [hf, hsf]

/-- Every original index cached in `filtered_files` is a valid index of
`files`. -/
def FilteredWf (s : Explorer) : Prop :=
  ∀ pr ∈ s.filtered_files, pr.1 < s.files.length

/-- The selected-index consistency invariant: the stored unfiltered index is
in bounds whenever the unfiltered list is non-empty, and the cached filtered
list only refers to valid unfiltered indices. -/
def SelInv (s : Explorer) : Prop :=
  (s.files ≠ [] → s.selected < s.files.length) ∧ FilteredWf s

lemma filteredWf_of_eq_compute {s : Explorer}
    (h : s.filtered_files = computeFilteredFiles s) : FilteredWf s := by
  intro pr hpr
  rw [h] at hpr
  exact mem_computeFilteredFiles_lt hpr

/-- What a successful reload changes and what it preserves. -/
lemma getAndSetFiles_ok {ε σ : Type} {fs : FileSystemM ε σ} {st : σ}
    {s s2 : Explorer} (h : getAndSetFiles fs st s = .ok s2) :
    s2.cwd = s.cwd ∧ s2.show_hidden = s.show_hidden ∧
    s2.selected = s.selected ∧ s2.search_filter = s.search_filter ∧
    s2.scroll_offset = s.scroll_offset ∧
    s2.selected_paths = s.selected_paths ∧
    s2.filtered_files = computeFilteredFiles s2 ∧
    ∃ entries, fs.read_dir st s.cwd = .ok entries ∧
      s2.files = buildFiles s.cwd s.show_hidden entries := by
  unfold getAndSetFiles at h
  cases hr : fs.read_dir st s.cwd with
  | error e => rw [hr] at h; exact absurd h (by simp)
  | ok entries =>
    rw [hr] at h
    simp only [Except.ok.injEq] at h
    subst h
    refine ⟨rfl, rfl, rfl, rfl, rfl, rfl, ?_, entries, rfl, rfl⟩
    exact computeFilteredFiles_congr rfl rfl

/-- A failed reload reports exactly the lister's error. -/
lemma getAndSetFiles_error {ε σ : Type} {fs : FileSystemM ε σ} {st : σ}
    {s : Explorer} {e : ε} (h : fs.read_dir st s.cwd = .error e) :
    getAndSetFiles fs st s = .error e := by
  unfold getAndSetFiles
  rw [h]

/-- The movement idiom only rewrites `selected`, and only to an original
index cached in `filtered_files`. -/
lemma setSelectedFromFiltered_fields (s : Explorer) (idx : Nat) :
    (setSelectedFromFiltered s idx).cwd = s.cwd ∧
    (setSelectedFromFiltered s idx).files = s.files ∧
    (setSelectedFromFiltered s idx).filtered_files = s.filtered_files ∧
    (setSelectedFromFiltered s idx).show_hidden = s.show_hidden ∧
    (setSelectedFromFiltered s idx).search_filter = s.search_filter ∧
    (setSelectedFromFiltered s idx).scroll_offset = s.scroll_offset ∧
    (setSelectedFromFiltered s idx).selected_paths = s.selected_paths := by
  unfold setSelectedFromFiltered
  cases s.filtered_files[idx]? <;> simp

lemma setSelectedFromFiltered_inv {s : Explorer} (hInv : SelInv s) (idx : Nat) :
    SelInv (setSelectedFromFiltered s idx) := by
  unfold setSelectedFromFiltered
  cases hg : s.filtered_files[idx]? with
  | none => exact hInv
  | some p =>
    constructor
    · intro _
      exact hInv.2 p (List.getElem?_mem hg)
    · exact hInv.2

lemma filteredWf_update_selected {s : Explorer} (hwf : FilteredWf s) (n : Nat) :
    FilteredWf { s with selected := n } := by
  intro pr hpr
  exact hwf pr hpr

lemma selInv_update_selected_lt {s : Explorer} (hwf : FilteredWf s) {n : Nat}
    (hn : s.files ≠ [] → n < s.files.length) : SelInv { s with selected := n } :=
  ⟨hn, filteredWf_update_selected hwf n⟩

lemma selInv_update_selected_zero {s : Explorer} (hwf : FilteredWf s) :
    SelInv { s with selected := 0 } :=
  selInv_update_selected_lt hwf (fun hne => List.length_pos.mpr hne)

/-- The filtered cache of a freshly reloaded state is well-formed. -/
lemma filteredWf_after_reload {ε σ : Type} {fs : FileSystemM ε σ} {st : σ}
    {s s2 : Explorer} (h : getAndSetFiles fs st s = .ok s2) : FilteredWf s2 :=
  filteredWf_of_eq_compute (getAndSetFiles_ok h).2.2.2.2.2.2.1

/-- Case analysis of `select_file`: either the name is absent and nothing
changes, or the first matching index is selected and it is in bounds. -/
lemma selectFile_spec (s : Explorer) (filename : String) :
    selectFile s filename = (false, s) ∨
    ∃ index, s.files.findIdx? (fun f => f.name == filename) = some index ∧
      index < s.files.length ∧
      selectFile s filename = (true, { s with selected := index }) := by
  unfold selectFile
  cases hidx : s.files.findIdx? (fun f => f.name == filename) with
  | none => exact Or.inl rfl
  | some index =>
    refine Or.inr ⟨index, rfl, ?_, rfl⟩
    exact (List.findIdx?_eq_some_iff_findIdx_eq.mp hidx).1

/-- Invariant preservation for `handle`: every successful command, and every
failing command other than `Right` (Descend), preserves `SelInv`. -/
lemma handle_inv_aux {ε σ : Type} (fs : FileSystemM ε σ) (st : σ)
    (s : Explorer) (hInv : SelInv s) (i : Input) :
    (∀ s' st', handle fs st s i = .ok s' st' → SelInv s') ∧
    (∀ e s' st', i ≠ Input.Right → handle fs st s i = .err e s' st' →
      SelInv s') := by
  have hmove : ∀ idx, SelInv (setSelectedFromFiltered s idx) :=
    fun idx => setSelectedFromFiltered_inv hInv idx
  cases i with
  | Up =>
    refine ⟨fun s' st' h => ?_, fun e s' st' _ h => ?_⟩
    · simp only [handle] at h
      split at h
      · injection h with h1 h2; subst h1; exact hInv
      · injection h with h1 h2; subst h1; exact hmove _
    · simp only [handle] at h
      split at h <;> exact absurd h (by simp)
  | Down =>
    refine ⟨fun s' st' h => ?_, fun e s' st' _ h => ?_⟩
    · simp only [handle] at h
      split at h
      · injection h with h1 h2; subst h1; exact hInv
      · injection h with h1 h2; subst h1; exact hmove _
    · simp only [handle] at h
      split at h <;> exact absurd h (by simp)
  | Home =>
    refine ⟨fun s' st' h => ?_, fun e s' st' _ h => ?_⟩
    · simp only [handle] at h
      injection h with h1 h2; subst h1; exact hmove _
    · simp only [handle] at h
      exact absurd h (by simp)
  | End =>
    refine ⟨fun s' st' h => ?_, fun e s' st' _ h => ?_⟩
    · simp only [handle] at h
      injection h with h1 h2; subst h1; exact hmove _
    · simp only [handle] at h
      exact absurd h (by simp)
  | PageUp =>
    refine ⟨fun s' st' h => ?_, fun e s' st' _ h => ?_⟩
    · simp only [handle] at h
      split at h
      · injection h with h1 h2; subst h1; exact hInv
      · injection h with h1 h2; subst h1; exact hmove _
    · simp only [handle] at h
      split at h <;> exact absurd h (by simp)
  | PageDown =>
    refine ⟨fun s' st' h => ?_, fun e s' st' _ h => ?_⟩
    · simp only [handle] at h
      split at h
      · injection h with h1 h2; subst h1; exact hInv
      · injection h with h1 h2; subst h1; exact hmove _
    · simp only [handle] at h
      split at h <;> exact absurd h (by simp)
  | None =>
    refine ⟨fun s' st' h => ?_, fun e s' st' _ h => ?_⟩
    · simp only [handle] at h
      injection h with h1 h2; subst h1; exact hInv
    · simp only [handle] at h
      exact absurd h (by simp)
  | Left =>
    refine ⟨fun s' st' h => ?_, fun e s' st' _ h => ?_⟩
    · simp only [handle] at h
      split at h
      · injection h with h1 h2; subst h1; exact hInv
      · rename_i parent hp
        split at h
        · exact absurd h (by simp)
        · rename_i s2 hg
          have hwf : FilteredWf s2 := filteredWf_after_reload hg
          split at h
          · rename_i dirName hn
            split at h
            · rename_i s3 hsf
              rcases selectFile_spec s2 dirName with h1 | ⟨index, _, hlt, h1⟩
              · rw [h1] at hsf
                exact absurd hsf (by simp)
              · rw [h1] at hsf
                injection hsf with hb hs
                injection h with h1 h2
                subst h1; subst hs
                exact selInv_update_selected_lt hwf (fun _ => hlt)
            · rename_i s3 hsf
              rcases selectFile_spec s2 dirName with h1 | ⟨index, _, hlt, h1⟩
              · rw [h1] at hsf
                injection hsf with hb hs
                injection h with h1 h2
                subst h1; subst hs
                exact selInv_update_selected_zero hwf
              · rw [h1] at hsf
                exact absurd hsf (by simp)
          · injection h with h1 h2; subst h1
            exact selInv_update_selected_zero hwf
    · simp only [handle] at h
      split at h
      · exact absurd h (by simp)
      · rename_i parent hp
        split at h
        · rename_i e0 hg
          injection h with h0 h1 h2; subst h1
          exact ⟨hInv.1, hInv.2⟩
        · rename_i s2 hg
          split at h
          · split at h <;> exact absurd h (by simp)
          · exact absurd h (by simp)
  | Right =>
    refine ⟨fun s' st' h => ?_, fun e s' st' hne h => absurd rfl hne⟩
    simp only [handle] at h
    split at h
    · exact absurd h (by simp)
    · rename_i f hf
      split at h
      · split at h
        · exact absurd h (by simp)
        · rename_i s2 hg
          injection h with h1 h2; subst h1
          exact selInv_update_selected_zero (filteredWf_after_reload hg)
      · injection h with h1 h2; subst h1; exact hInv
  | ToggleShowHidden =>
    refine ⟨fun s' st' h => ?_, fun e s' st' _ h => ?_⟩
    · simp only [handle, setShowHidden] at h
      split at h
      · exact absurd h (by simp)
      · rename_i s2 hg
        injection h with h1 h2; subst h1
        exact selInv_update_selected_zero (filteredWf_after_reload hg)
    · simp only [handle, setShowHidden] at h
      split at h
      · rename_i e0 hg
        injection h with h0 h1 h2; subst h1
        exact ⟨hInv.1, hInv.2⟩
      · exact absurd h (by simp)
  | Delete =>
    refine ⟨fun s' st' h => ?_, fun e s' st' _ h => ?_⟩
    · simp only [handle] at h
      split at h
      · exact absurd h (by simp)
      · rename_i f hf
        split at h
        · split at h
          · exact absurd h (by simp)
          · rename_i st1 hdel
            split at h
            · exact absurd h (by simp)
            · rename_i s2 hg
              have hwf : FilteredWf s2 := filteredWf_after_reload hg
              split at h
              · rename_i hc
                injection h with h1 h2; subst h1
                refine selInv_update_selected_lt hwf (fun hne => ?_)
                have : s2.files.length ≠ 0 := by
                  simpa [List.length_eq_zero] using hne
                omega
              · rename_i hc
                injection h with h1 h2; subst h1
                refine ⟨fun hne => ?_, hwf⟩
                by_contra hcon
                apply hc
                have hge : s2.files.length ≤ s2.selected := Nat.le_of_not_lt hcon
                have hne2 : s2.files.isEmpty = false := List.isEmpty_eq_false.mpr hne
                simp [hne2, hge, ge_iff_le]
        · injection h with h1 h2; subst h1; exact hInv
    · simp only [handle] at h
      split at h
      · exact absurd h (by simp)
      · rename_i f hf
        split at h
        · split at h
          · rename_i e0 hdel
            injection h with h0 h1 h2; subst h1
            exact ⟨hInv.1, hInv.2⟩
          · rename_i st1 hdel
            split at h
            · rename_i e0 hg
              injection h with h0 h1 h2; subst h1
              exact ⟨hInv.1, hInv.2⟩
            · rename_i s2 hg
              split at h <;> exact absurd h (by simp)
        · exact absurd h (by simp)

/-! ### Claims -/

/-- C2 (corrected): starting from any state satisfying the selected-index
consistency invariant `SelInv` — which holds for every state freshly
produced by a reload and is preserved by all commands except a Descend
whose reload fails — handling any input keeps `SelInv`, hence keeps the
stored selected index strictly below the unfiltered length whenever that
list is non-empty, both when the command succeeds and when any command
other than `Right` (Descend) returns an error.  A failed Descend can break
the bound (see `selected_out_of_bounds_after_failed_descend`). -/
theorem handle_keeps_selected_in_bounds {ε σ : Type} (fs : FileSystemM ε σ)
    (st : σ) (s : Explorer) (i : Input) (hInv : SelInv s) :
    (∀ s' st', handle fs st s i = .ok s' st' →
      SelInv s' ∧ (s'.files ≠ [] → s'.selected < s'.files.length)) ∧
    (∀ e s' st', i ≠ Input.Right → handle fs st s i = .err e s' st' →
      SelInv s' ∧ (s'.files ≠ [] → s'.selected < s'.files.length)) := by
  obtain ⟨h1, h2⟩ := handle_inv_aux fs st s hInv i
  exact ⟨fun s' st' h => ⟨h1 s' st' h, (h1 s' st' h).1⟩,
    fun e s' st' hne h => ⟨h2 e s' st' hne h, (h2 e s' st' hne h).1⟩⟩

/-- Witness for C2 at a concrete input: the invariant holds for `cexS0` and
is preserved by a successful `Down`. -/
theorem handle_keeps_selected_in_bounds_witness :
    SelInv cexS0 ∧
    ((∀ s' st', handle cexFS () cexS0 .Down = .ok s' st' →
        SelInv s' ∧ (s'.files ≠ [] → s'.selected < s'.files.length)) ∧
     (∀ e s' st', Input.Down ≠ Input.Right →
        handle cexFS () cexS0 .Down = .err e s' st' →
        SelInv s' ∧ (s'.files ≠ [] → s'.selected < s'.files.length))) := by
  have hInv : SelInv cexS0 := by
    refine ⟨fun _ => by decide, fun pr hpr => ?_⟩
    fin_cases hpr <;> decide
  exact ⟨hInv, handle_keeps_selected_in_bounds cexFS () cexS0 .Down hInv⟩

/-- C2 counterexample: from the reachable state `cexS1` (obtained from
`withFs` and one `Down`), a Descend whose reload fails returns the error
with `files` shrunk by `swap_remove` but `selected` untouched, so the
selected index equals the length of the non-empty unfiltered list — the
claimed bound is violated after an error-returning command. -/
theorem selected_out_of_bounds_after_failed_descend :
    withFs cexFS () [] = .ok cexS0 ∧
    handle cexFS () cexS0 .Down = .ok cexS1 () ∧
    handle cexFS () cexS1 .Right = .err () cexS2 () ∧
    cexS2.files ≠ [] ∧ ¬ cexS2.selected < cexS2.files.length := by
  refine ⟨rfl, by decide, by decide, by decide, by decide⟩

/-- C1 (corrected): with an Entry Lister whose directory query fails, every
reload-triggering command returns the lister's error and never installs a
partial entry list — `files`, `filtered_files` and `selected` keep their
prior values — except that Descend has already removed the selected entry
from the unfiltered list by `swap_remove`; moreover the current directory
(Ascend, Descend, SetDirectory) and the show-hidden flag (ToggleHidden)
already hold their new values when the error is returned, so the command
is not all-or-nothing on the whole observable state. -/
theorem reload_failure_partial_mutation {ε σ : Type} (fs : FileSystemM ε σ)
    (st : σ) (s : Explorer) (e : ε)
    (hfail : ∀ st0 p, fs.read_dir st0 p = .error e) :
    (∀ parent, parentPath s.cwd = some parent →
      handle fs st s .Left = .err e { s with cwd := parent } st) ∧
    (∀ f, s.files[s.selected]? = some f → f.is_dir = true →
      handle fs st s .Right =
        .err e { s with files := swapRemove s.files s.selected,
                        cwd := f.path } st) ∧
    (handle fs st s .ToggleShowHidden =
      .err e { s with show_hidden := !s.show_hidden } st) ∧
    (∀ f st1, s.files[s.selected]? = some f → f.is_dir = false →
      fs.delete st f.path = .ok st1 →
      handle fs st s .Delete = .err e s st1) ∧
    (∀ p, setCwd fs st s p = .err e { s with cwd := p } st) := by
  refine ⟨?_, ?_, ?_, ?_, ?_⟩
  · intro parent hp
    simp [handle, hp, getAndSetFiles, hfail]
  · intro f hf hd
    simp [handle, hf, hd, getAndSetFiles, hfail]
  · simp [handle, setShowHidden, getAndSetFiles, hfail]
  · intro f st1 hf hd hdel
    simp [handle, hf, hd, hdel, getAndSetFiles, hfail]
  · intro p
    simp [setCwd, getAndSetFiles, hfail]

/-- Witness for C1 at a concrete input: a failing Ascend from `c1S`. -/
theorem reload_failure_partial_mutation_witness :
    (∀ st0 p, failFS.read_dir st0 p = .error ()) ∧
    handle failFS () c1S .Left = .err () { c1S with cwd := [] } () := by
  refine ⟨fun st0 p => rfl, ?_⟩
  exact (reload_failure_partial_mutation failFS () c1S ()
    (fun st0 p => rfl)).1 [] rfl

/-- C1 counterexample: a failing Ascend from `c1S` returns the error but
has already changed the current directory, so the observable state does not
equal its pre-command value. -/
theorem reload_failure_changes_cwd_cex :
    handle failFS () c1S .Left = .err () c1Sfail () ∧
    c1Sfail.cwd ≠ c1S.cwd := by
  exact ⟨by decide, by decide⟩

/-- The current filtered position (defaulted to 0) is in bounds whenever
the filtered list is non-empty. -/
lemma filteredSelectedIdx_getD_lt {s : Explorer}
    (hne : s.filtered_files ≠ []) :
    (filteredSelectedIdx s).getD 0 < s.filtered_files.length := by
  unfold filteredSelectedIdx
  cases h : s.filtered_files.findIdx? (fun p => p.1 == s.selected) with
  | none => simpa using List.length_pos.mpr hne
  | some i =>
    simpa using (List.findIdx?_eq_some_iff_findIdx_eq.mp h).1

/-- C3 (confirmed): with non-empty filtered list, `Down` from the last
filtered position wraps to the first and `Up` from the first wraps to the
last; in any other position they step the filtered position by +1 / −1 and
store the backing unfiltered index (the position of a selection absent from
the filtered view defaults to 0 before stepping); with an empty filtered
list both are successful no-ops.  The bound `usizeMod` reflects that Rust
list lengths fit in `usize`. -/
theorem move_up_down_wraparound {ε σ : Type} (fs : FileSystemM ε σ) (st : σ)
    (s : Explorer) (hbound : s.filtered_files.length ≤ usizeMod) :
    (s.filtered_files = [] →
      handle fs st s .Up = .ok s st ∧ handle fs st s .Down = .ok s st) ∧
    (s.filtered_files ≠ [] →
      (((filteredSelectedIdx s).getD 0 = s.filtered_files.length - 1 →
        ∃ pr, s.filtered_files[0]? = some pr ∧
          handle fs st s .Down = .ok { s with selected := pr.1 } st) ∧
       ((filteredSelectedIdx s).getD 0 = 0 →
        ∃ pr, s.filtered_files[s.filtered_files.length - 1]? = some pr ∧
          handle fs st s .Up = .ok { s with selected := pr.1 } st) ∧
       ((filteredSelectedIdx s).getD 0 < s.filtered_files.length - 1 →
        ∃ pr, s.filtered_files[(filteredSelectedIdx s).getD 0 + 1]? = some pr ∧
          handle fs st s .Down = .ok { s with selected := pr.1 } st) ∧
       (0 < (filteredSelectedIdx s).getD 0 →
        ∃ pr, s.filtered_files[(filteredSelectedIdx s).getD 0 - 1]? = some pr ∧
          handle fs st s .Up = .ok { s with selected := pr.1 } st))) := by
  constructor
  · intro he
    have he' : s.filtered_files.isEmpty = true := by simp [he]
    constructor <;> simp [handle, he']
  · intro hne
    have he' : s.filtered_files.isEmpty = false := List.isEmpty_eq_false.mpr hne
    have hlen : 0 < s.filtered_files.length := List.length_pos.mpr hne
    have hcur : (filteredSelectedIdx s).getD 0 < s.filtered_files.length :=
      filteredSelectedIdx_getD_lt hne
    refine ⟨?_, ?_, ?_, ?_⟩
    · intro hlast
      have hidx : ((filteredSelectedIdx s).getD 0 + 1) % s.filtered_files.length = 0 := by
        rw [hlast]
        have : s.filtered_files.length - 1 + 1 = s.filtered_files.length := by omega
        rw [this, Nat.mod_self]
      obtain ⟨pr, hpr⟩ : ∃ pr, s.filtered_files[0]? = some pr :=
        ⟨_, List.getElem?_eq_some.mpr ⟨hlen, rfl⟩⟩
      refine ⟨pr, hpr, ?_⟩
      simp only [handle, he', Bool.false_eq_true, if_false, hidx]
      unfold setSelectedFromFiltered
      rw [hpr]
    · intro hfirst
      have hidx : min (wrappingSubOne ((filteredSelectedIdx s).getD 0))
          (s.filtered_files.length - 1) = s.filtered_files.length - 1 := by
        rw [hfirst]
        unfold wrappingSubOne usizeMod
        rw [Nat.zero_add, Nat.mod_eq_of_lt (by omega)]
        have : s.filtered_files.length - 1 ≤ 2 ^ 64 - 1 := by
          have := hbound; unfold usizeMod at this; omega
        omega
      obtain ⟨pr, hpr⟩ : ∃ pr,
          s.filtered_files[s.filtered_files.length - 1]? = some pr :=
        ⟨_, List.getElem?_eq_some.mpr ⟨by omega, rfl⟩⟩
      refine ⟨pr, hpr, ?_⟩
      simp only [handle, he', Bool.false_eq_true, if_false, hidx]
      unfold setSelectedFromFiltered
      rw [hpr]
    · intro hstep
      have hidx : ((filteredSelectedIdx s).getD 0 + 1) % s.filtered_files.length =
          (filteredSelectedIdx s).getD 0 + 1 :=
        Nat.mod_eq_of_lt (by omega)
      obtain ⟨pr, hpr⟩ : ∃ pr,
          s.filtered_files[(filteredSelectedIdx s).getD 0 + 1]? = some pr :=
        ⟨_, List.getElem?_eq_some.mpr ⟨by omega, rfl⟩⟩
      refine ⟨pr, hpr, ?_⟩
      simp only [handle, he', Bool.false_eq_true, if_false, hidx]
      unfold setSelectedFromFiltered
      rw [hpr]
    · intro hpos
      have hmin : min (wrappingSubOne ((filteredSelectedIdx s).getD 0))
          (s.filtered_files.length - 1) = (filteredSelectedIdx s).getD 0 - 1 := by
        unfold wrappingSubOne usizeMod
        have hb : (2 : Nat) ^ 64 = usizeMod := rfl
        have hle : s.filtered_files.length ≤ 2 ^ 64 := hbound
        have : (filteredSelectedIdx s).getD 0 + (2 ^ 64 - 1) =
            ((filteredSelectedIdx s).getD 0 - 1) + 2 ^ 64 := by omega
        rw [this, Nat.add_mod_right, Nat.mod_eq_of_lt (by omega)]
        omega
      obtain ⟨pr, hpr⟩ : ∃ pr,
          s.filtered_files[(filteredSelectedIdx s).getD 0 - 1]? = some pr :=
        ⟨_, List.getElem?_eq_some.mpr ⟨by omega, rfl⟩⟩
      refine ⟨pr, hpr, ?_⟩
      simp only [handle, he', Bool.false_eq_true, if_false, hmin]
      unfold setSelectedFromFiltered
      rw [hpr]

/-- Witness for C3 at a concrete input: `Down` from the last filtered
position of `exSLast` wraps the selection to the first entry. -/
theorem move_up_down_wraparound_witness :
    exSLast.filtered_files.length ≤ usizeMod ∧
    handle failFS () exSLast .Down = .ok { exSLast with selected := 0 } () := by
  refine ⟨by decide, ?_⟩
  obtain ⟨pr, hpr, h⟩ :=
    ((move_up_down_wraparound failFS () exSLast (by decide)).2
      (by decide)).1 (by decide)
  have hp : pr = ((0 : Nat), exParent) := by
    have : exSLast.filtered_files[0]? = some ((0 : Nat), exParent) := by decide
    rw [this] at hpr
    exact (Option.some.inj hpr).symm
  subst hp
  exact h

/-- C4 (corrected): when the selected entry is a directory (including the
synthetic parent), `Delete` performs no deletion and no reload and leaves
the state unchanged; when it is not a directory, `Delete` deletes the
entry's path through the lister and reloads, and afterwards clamps an
out-of-bounds selection to the new last index — but when the reloaded list
is empty the selection is left unchanged (the source guards the clamp with
`!files.is_empty()`), not reset to 0 as claimed. -/
theorem delete_current_spec {ε σ : Type} (fs : FileSystemM ε σ) (st : σ)
    (s : Explorer) :
    (∀ f, s.files[s.selected]? = some f → f.is_dir = true →
      handle fs st s .Delete = .ok s st) ∧
    (∀ f st1 s2, s.files[s.selected]? = some f → f.is_dir = false →
      fs.delete st f.path = .ok st1 →
      getAndSetFiles fs st1 s = .ok s2 →
      ((s2.files ≠ [] → s2.files.length ≤ s.selected →
         handle fs st s .Delete =
           .ok { s2 with selected := s2.files.length - 1 } st1) ∧
       (s.selected < s2.files.length →
         handle fs st s .Delete = .ok s2 st1) ∧
       (s2.files = [] → handle fs st s .Delete = .ok s2 st1))) := by
  constructor
  · intro f hf hd
    simp [handle, hf, hd]
  · intro f st1 s2 hf hd hdel hg
    have hsel2 : s2.selected = s.selected := (getAndSetFiles_ok hg).2.2.1
    refine ⟨?_, ?_, ?_⟩
    · intro hne hge
      have hc : (s2.selected ≥ s2.files.length && !s2.files.isEmpty) = true := by
        simp [hsel2, hge, List.isEmpty_eq_false.mpr hne, ge_iff_le]
      simp [handle, hf, hd, hdel, hg, hc]
    · intro hlt
      have hc : (s2.selected ≥ s2.files.length && !s2.files.isEmpty) = false := by
        simp [hsel2, ge_iff_le]
        intro hge
        omega
      simp [handle, hf, hd, hdel, hg, hc]
    · intro hemp
      have hc : (s2.selected ≥ s2.files.length && !s2.files.isEmpty) = false := by
        simp [hemp]
      simp [handle, hf, hd, hdel, hg, hc]

/-- Witness for C4 at a concrete input: deleting `f.txt` from `delS0`
through `delFS` reloads an empty directory and leaves the selection at 1. -/
theorem delete_current_spec_witness :
    handle delFS false delS0 .Delete = .ok delS2 true :=
  ((delete_current_spec delFS false delS0).2 fileF true delS2 (by decide)
    (by decide) rfl rfl).2.2 (by decide)

/-- C4 counterexample: after deleting the selected `f.txt` the reloaded
directory is empty and the stored selection stays at 1 — the claim's
"set to 0 when the new sequence is empty" does not hold. -/
theorem delete_empty_selection_not_reset :
    handle delFS false delS0 .Delete = .ok delS2 true ∧
    delS2.files = [] ∧ delS2.selected ≠ 0 := by
  refine ⟨by decide, by decide, by decide⟩

/-- C5 (confirmed): after setting a search filter, the filtered list holds
exactly the (index, entry) pairs whose name contains the filter
case-insensitively, in unfiltered order (strictly increasing original
indices); the synthetic parent `../` receives no special treatment, as the
worked example (`../`, `Documents/`, `passport.png`, `resume.pdf` filtered
by "doc") shows: only `Documents/` remains. -/
theorem search_filter_membership (s : Explorer) (filter : String) :
    (∀ i f, ((i, f) ∈ (setSearchFilter s (some filter)).filtered_files ↔
       (s.files[i]? = some f ∧
        strContains (toLowerStr f.name) (toLowerStr filter) = true))) ∧
    ((setSearchFilter s (some filter)).filtered_files).Pairwise
      (fun a b => a.1 < b.1) ∧
    (setSearchFilter exS (some "doc")).filtered_files = [(1, exDocuments)] := by
  refine ⟨?_, ?_, by decide⟩
  · intro i f
    show (i, f) ∈ computeFilteredFiles { s with search_filter := some filter } ↔ _
    simp [computeFilteredFiles, List.mem_filter,
      List.mk_mem_enum_iff_getElem?, and_comm]
  · show (computeFilteredFiles { s with search_filter := some filter }).Pairwise _
    exact computeFilteredFiles_pairwise _

/-- C6 (confirmed): clearing the search filter makes the filtered list the
exact enumeration of the unfiltered list (same entries, same order, same
length, each paired with its own index) and leaves the selection untouched;
`setSearchFilter` takes no `FileSystemM` argument, so the recompute cannot
consult the Entry Lister. -/
theorem clear_filter_restores_enumeration (s : Explorer) :
    (setSearchFilter s none).filtered_files = s.files.enum ∧
    (setSearchFilter s none).filtered_files.map Prod.snd = s.files ∧
    (setSearchFilter s none).filtered_files.length = s.files.length ∧
    (∀ i : Nat, (setSearchFilter s none).filtered_files[i]? =
      s.files[i]?.map fun f => (i, f)) ∧
    (setSearchFilter s none).selected = s.selected ∧
    (setSearchFilter s none).files = s.files ∧
    (setSearchFilter s none).cwd = s.cwd ∧
    (setSearchFilter s none).search_filter = none := by
  refine ⟨rfl, ?_, ?_, ?_, rfl, rfl, rfl, rfl⟩
  · show (s.files.enum).map Prod.snd = s.files
    exact List.enum_map_snd s.files
  · show (s.files.enum).length = s.files.length
    exact List.enum_length
  · intro i
    exact List.getElem?_enum s.files i

/-- C8 (confirmed): `set_selected_idx` asserts on any position at or beyond
the filtered length (modelled as `none`, never a clamped success) and for
an in-range position stores the backing unfiltered index. -/
theorem set_selected_idx_contract (s : Explorer) (sel : Nat) :
    (s.filtered_files.length ≤ sel → setSelectedIdx s sel = none) ∧
    ∀ h : sel < s.filtered_files.length,
      setSelectedIdx s sel =
        some { s with selected := (s.filtered_files.get ⟨sel, h⟩).1 } := by
  constructor
  · intro hge
    unfold setSelectedIdx
    rw [dif_neg (by omega)]
  · intro h
    unfold setSelectedIdx
    rw [dif_pos h]

/-- Witness for C8 at concrete inputs: position 4 is rejected on the
4-entry view `exS`, position 1 selects unfiltered index 1. -/
theorem set_selected_idx_contract_witness :
    setSelectedIdx exS 4 = none ∧
    setSelectedIdx exS 1 = some { exS with selected := 1 } := by
  constructor
  · exact (set_selected_idx_contract exS 4).1 (by decide)
  · rw [(set_selected_idx_contract exS 1).2 (by decide)]
    decide

/-- On a list with strictly increasing first components, searching for the
first component of entry `p` finds exactly position `p`. -/
lemma findIdx_pairwise_fst {l : List (Nat × File)}
    (hl : l.Pairwise (fun a b => a.1 < b.1)) {p : Nat} (hp : p < l.length) :
    l.findIdx? (fun pr => pr.1 == (l.get ⟨p, hp⟩).1) = some p := by
  rw [List.findIdx?_eq_some_iff_getElem]
  refine ⟨hp, by simp [List.get_eq_getElem], ?_⟩
  intro j hj
  have hlt := List.pairwise_iff_getElem.mp hl j p (Nat.lt_trans hj hp) hp hj
  simp only [List.get_eq_getElem, Bool.not_eq_true, beq_eq_false_iff_ne, ne_eq]
  exact Nat.ne_of_lt hlt

/-- C9 (confirmed): for any state whose filtered cache is the computed
filtering of its unfiltered list (as every reload and filter change
establishes), storing filtered position `p` with `set_selected_idx` and
reading it back with `selected_idx` returns exactly `p`, because the
cached original indices are strictly increasing. -/
theorem selected_idx_round_trip (s : Explorer) (p : Nat)
    (hcomp : s.filtered_files = computeFilteredFiles s)
    (hp : p < s.filtered_files.length) :
    ∃ s', setSelectedIdx s p = some s' ∧ selectedIdx s' = p := by
  refine ⟨{ s with selected := (s.filtered_files.get ⟨p, hp⟩).1 }, ?_, ?_⟩
  · unfold setSelectedIdx
    rw [dif_pos hp]
  · have hpw : s.filtered_files.Pairwise (fun a b => a.1 < b.1) := by
      rw [hcomp]; exact computeFilteredFiles_pairwise s
    have hfind := findIdx_pairwise_fst hpw hp
    unfold selectedIdx filteredSelectedIdx
    show (s.filtered_files.findIdx?
      (fun pr => pr.1 == (s.filtered_files.get ⟨p, hp⟩).1)).getD 0 = p
    rw [hfind]
    rfl

/-- Witness for C9 at a concrete input: position 2 of `exS` round-trips. -/
theorem selected_idx_round_trip_witness :
    exS.filtered_files = computeFilteredFiles exS ∧
    ∃ s', setSelectedIdx exS 2 = some s' ∧ selectedIdx s' = 2 :=
  ⟨by decide, selected_idx_round_trip exS 2 (by decide) (by decide)⟩

/-- C10 (confirmed): the cursor-only commands (`Up`, `Down`, `Home`, `End`,
`PageUp`, `PageDown`, `None`) always succeed, change at most the stored
selected index, and their result is one fixed state for every filesystem
and backend state — the Entry Lister is never consulted. -/
theorem pure_nav_frame (s : Explorer) (i : Input)
    (hnav : isPureNav i = true) :
    ∃ s', s'.cwd = s.cwd ∧ s'.files = s.files ∧
      s'.filtered_files = s.filtered_files ∧
      s'.show_hidden = s.show_hidden ∧
      s'.search_filter = s.search_filter ∧
      s'.scroll_offset = s.scroll_offset ∧
      s'.selected_paths = s.selected_paths ∧
      ∀ (ε σ : Type) (fs : FileSystemM ε σ) (st : σ),
        handle fs st s i = .ok s' st := by
  have hframe := setSelectedFromFiltered_fields s
  cases i with
  | Up =>
    by_cases he : s.filtered_files.isEmpty
    · exact ⟨s, rfl, rfl, rfl, rfl, rfl, rfl, rfl,
        fun ε σ fs st => by simp [handle, he]⟩
    · obtain ⟨h1, h2, h3, h4, h5, h6, h7⟩ := hframe
        (min (wrappingSubOne ((filteredSelectedIdx s).getD 0))
          (s.filtered_files.length - 1))
      exact ⟨_, h1, h2, h3, h4, h5, h6, h7,
        fun ε σ fs st => by simp [handle, he]⟩
  | Down =>
    by_cases he : s.filtered_files.isEmpty
    · exact ⟨s, rfl, rfl, rfl, rfl, rfl, rfl, rfl,
        fun ε σ fs st => by simp [handle, he]⟩
    · obtain ⟨h1, h2, h3, h4, h5, h6, h7⟩ := hframe
        ((((filteredSelectedIdx s).getD 0) + 1) % s.filtered_files.length)
      exact ⟨_, h1, h2, h3, h4, h5, h6, h7,
        fun ε σ fs st => by simp [handle, he]⟩
  | Home =>
    obtain ⟨h1, h2, h3, h4, h5, h6, h7⟩ := hframe 0
    exact ⟨_, h1, h2, h3, h4, h5, h6, h7,
      fun ε σ fs st => by simp [handle]⟩
  | End =>
    obtain ⟨h1, h2, h3, h4, h5, h6, h7⟩ := hframe (s.filtered_files.length - 1)
    exact ⟨_, h1, h2, h3, h4, h5, h6, h7,
      fun ε σ fs st => by simp [handle]⟩
  | PageUp =>
    by_cases he : s.filtered_files.isEmpty
    · exact ⟨s, rfl, rfl, rfl, rfl, rfl, rfl, rfl,
        fun ε σ fs st => by simp [handle, he]⟩
    · obtain ⟨h1, h2, h3, h4, h5, h6, h7⟩ := hframe
        (((filteredSelectedIdx s).getD 0) - scrollCount)
      exact ⟨_, h1, h2, h3, h4, h5, h6, h7,
        fun ε σ fs st => by simp [handle, he]⟩
  | PageDown =>
    by_cases he : s.filtered_files.isEmpty
    · exact ⟨s, rfl, rfl, rfl, rfl, rfl, rfl, rfl,
        fun ε σ fs st => by simp [handle, he]⟩
    · obtain ⟨h1, h2, h3, h4, h5, h6, h7⟩ := hframe
        (min (((filteredSelectedIdx s).getD 0) + scrollCount)
          (s.filtered_files.length - 1))
      exact ⟨_, h1, h2, h3, h4, h5, h6, h7,
        fun ε σ fs st => by simp [handle, he]⟩
  | None =>
    exact ⟨s, rfl, rfl, rfl, rfl, rfl, rfl, rfl,
      fun ε σ fs st => by simp [handle]⟩
  | Left => exact absurd hnav (by decide)
  | Right => exact absurd hnav (by decide)
  | ToggleShowHidden => exact absurd hnav (by decide)
  | Delete => exact absurd hnav (by decide)

/-- Witness for C10 at a concrete input: `Up` on `exS`. -/
theorem pure_nav_frame_witness :
    isPureNav Input.Up = true ∧
    ∃ s', s'.cwd = exS.cwd ∧ s'.files = exS.files ∧
      s'.filtered_files = exS.filtered_files ∧
      s'.show_hidden = exS.show_hidden ∧
      s'.search_filter = exS.search_filter ∧
      s'.scroll_offset = exS.scroll_offset ∧
      s'.selected_paths = exS.selected_paths ∧
      ∀ (ε σ : Type) (fs : FileSystemM ε σ) (st : σ),
        handle fs st exS .Up = .ok s' st :=
  ⟨rfl, pure_nav_frame exS .Up rfl⟩

lemma parentPath_concat (xs : List String) (n : String) :
    parentPath (xs ++ [n]) = some xs := by
  cases xs with
  | nil => simp [parentPath]
  | cons a t =>
    show some (a :: (t ++ [n])).dropLast = some (a :: t)
    rw [← List.cons_append, List.dropLast_concat]

lemma fileNameOf_concat (xs : List String) (n : String) :
    fileNameOf (xs ++ [n]) = some n := by
  simp [fileNameOf, List.getLast?_concat]

/-- C7 (confirmed): from a freshly listed state with no search filter whose
selection is a real child directory `n` (listed under the parent with the
trailing-slash name `n ++ "/"`, as the local lister produces), descending
(`Right`) and then ascending (`Left`) restores the original current
directory and unfiltered list and leaves the selection on an entry named
`n ++ "/"` — the child just departed.  Listings are stable across repeated
queries because `read_dir` depends only on the unchanged backend state. -/
theorem descend_ascend_round_trip {ε σ : Type} (fs : FileSystemM ε σ)
    (st : σ) (s : Explorer) (l l2 : List FileEntry) (f : File) (n : String)
    (hread : fs.read_dir st s.cwd = .ok l)
    (hfiles : s.files = buildFiles s.cwd s.show_hidden l)
    (_hfilter : s.search_filter = none)
    (hsel : s.files[s.selected]? = some f)
    (hdir : f.is_dir = true)
    (hpath : f.path = s.cwd ++ [n])
    (hname : f.name = n ++ "/")
    (hchild : fs.read_dir st (s.cwd ++ [n]) = .ok l2) :
    ∃ s1 s2, handle fs st s .Right = .ok s1 st ∧
      handle fs st s1 .Left = .ok s2 st ∧
      s2.cwd = s.cwd ∧ s2.files = s.files ∧
      ∃ g, s2.files[s2.selected]? = some g ∧ g.name = n ++ "/" := by
  -- Step 1: Descend succeeds and lands in the child directory.
  have hex1 : ∃ s1, handle fs st s .Right = .ok s1 st ∧
      s1.cwd = f.path ∧ s1.show_hidden = s.show_hidden := by
    unfold handle
    rw [hsel]
    dsimp only
    rw [if_pos hdir]
    cases hg1 : getAndSetFiles fs st
        { s with files := swapRemove s.files s.selected, cwd := f.path } with
    | error e0 =>
      exfalso
      unfold getAndSetFiles at hg1
      dsimp only at hg1
      rw [show fs.read_dir st f.path = .ok l2 by rw [hpath]; exact hchild]
        at hg1
      exact absurd hg1 (by simp)
    | ok s2d =>
      refine ⟨{ s2d with selected := 0 }, rfl, ?_, ?_⟩
      · exact (getAndSetFiles_ok hg1).1
      · exact (getAndSetFiles_ok hg1).2.1
  obtain ⟨s1, hright, h1cwd, h1sh⟩ := hex1
  -- Step 2: Ascend restores the parent listing and re-selects the child.
  have hex2 : ∃ s2, handle fs st s1 .Left = .ok s2 st ∧
      s2.cwd = s.cwd ∧ s2.files = s.files ∧
      ∃ g, s2.files[s2.selected]? = some g ∧ g.name = n ++ "/" := by
    unfold handle
    rw [show parentPath s1.cwd = some s.cwd by
      rw [h1cwd, hpath]; exact parentPath_concat s.cwd n]
    rw [show fileNameOf s1.cwd = some n by
      rw [h1cwd, hpath]; exact fileNameOf_concat s.cwd n]
    dsimp only [Option.map_some']
    cases hg2 : getAndSetFiles fs st { s1 with cwd := s.cwd } with
    | error e0 =>
      exfalso
      unfold getAndSetFiles at hg2
      dsimp only at hg2
      rw [hread] at hg2
      exact absurd hg2 (by simp)
    | ok s2p =>
      dsimp only
      obtain ⟨hcwd2, hsh2, _, _, _, _, _, entries, hrd2, hbuild⟩ :=
        getAndSetFiles_ok hg2
      have hentries : entries = l := by
        have : fs.read_dir st s.cwd = .ok entries := hrd2
        rw [hread] at this
        exact (Except.ok.inj this).symm
      subst hentries
      have hfiles2 : s2p.files = buildFiles s.cwd s1.show_hidden entries :=
        hbuild
      rw [h1sh, ← hfiles] at hfiles2
      have hfmem : f ∈ s2p.files := by
        rw [hfiles2]
        exact List.getElem?_mem hsel
      have hbeq : (f.name == n ++ "/") = true := by simp [hname]
      have hfind : s2p.files.findIdx? (fun g => g.name == n ++ "/") =
          some (s2p.files.findIdx (fun g => g.name == n ++ "/")) :=
        List.findIdx?_eq_some_of_exists ⟨f, hfmem, hbeq⟩
      obtain ⟨hlt2, hpel, -⟩ := List.findIdx?_eq_some_iff_getElem.mp hfind
      have hsf : selectFile s2p (n ++ "/") =
          (true, { s2p with selected :=
            s2p.files.findIdx (fun g => g.name == n ++ "/") }) := by
        unfold selectFile
        rw [hfind]
      rw [hsf]
      refine ⟨_, rfl, hcwd2, hfiles2, ?_⟩
      exact ⟨_, List.getElem?_eq_getElem hlt2, by simpa using hpel⟩
  obtain ⟨s2, hleft, h2cwd, h2files, hg⟩ := hex2
  exact ⟨s1, s2, hright, hleft, h2cwd, h2files, hg⟩

/-- Witness for C7 at a concrete input: entering `Documents/` from the root
of `navFS` and coming back restores the root state and re-selects
`Documents/`. -/
theorem descend_ascend_round_trip_witness :
    ∃ s1 s2, handle navFS () navS0 .Right = .ok s1 () ∧
      handle navFS () s1 .Left = .ok s2 () ∧
      s2.cwd = navS0.cwd ∧ s2.files = navS0.files ∧
      ∃ g, s2.files[s2.selected]? = some g ∧ g.name = "Documents" ++ "/" :=
  descend_ascend_round_trip navFS () navS0 [entryDocuments, entryA]
    [entryNote] fDocuments "Documents" rfl (by decide) rfl (by decide) rfl
    (by decide) (by decide) rfl
